import Mathlib

/-!
Verification development for the encrypted local RPC client
(`src/codewhisperer/util/codeWhispererSession.ts`): the `LspClient` class,
its per-request-kind methods, the module-level session key, the
`writeEncryptionInit` bootstrap line, and the environment signalling in
`activate`.  Byte strings are modelled as `List Nat` with every byte `< 256`.
-/

namespace LspSpec

/-! ### Base64 (standard, padded — Node `Buffer.toString('base64')`)
and base64url (unpadded — JOSE `BASE64URL`). -/

def stdAlphabet : List Char :=
  "ABCDEFGHIJKLMNOPQRSTUVWXYZabcdefghijklmnopqrstuvwxyz0123456789+/".data

def urlAlphabet : List Char :=
  "ABCDEFGHIJKLMNOPQRSTUVWXYZabcdefghijklmnopqrstuvwxyz0123456789-_".data

def sextetChar (alpha : List Char) (n : Nat) : Char := alpha.getD n 'A'

/-- Standard base64 character list of a byte list, with `'='` padding. -/
def b64PadChars : List Nat → List Char
  | [] => []
  | [a] => [sextetChar stdAlphabet (a / 4), sextetChar stdAlphabet (a % 4 * 16), '=', '=']
  | [a, b] => [sextetChar stdAlphabet (a / 4), sextetChar stdAlphabet (a % 4 * 16 + b / 16),
      sextetChar stdAlphabet (b % 16 * 4), '=']
  | a :: b :: c :: rest =>
      sextetChar stdAlphabet (a / 4) :: sextetChar stdAlphabet (a % 4 * 16 + b / 16) ::
      sextetChar stdAlphabet (b % 16 * 4 + c / 64) :: sextetChar stdAlphabet (c % 64) ::
      b64PadChars rest

/-- Unpadded base64url character list of a byte list (JOSE `BASE64URL`). -/
def b64UrlChars : List Nat → List Char
  | [] => []
  | [a] => [sextetChar urlAlphabet (a / 4), sextetChar urlAlphabet (a % 4 * 16)]
  | [a, b] => [sextetChar urlAlphabet (a / 4), sextetChar urlAlphabet (a % 4 * 16 + b / 16),
      sextetChar urlAlphabet (b % 16 * 4)]
  | a :: b :: c :: rest =>
      sextetChar urlAlphabet (a / 4) :: sextetChar urlAlphabet (a % 4 * 16 + b / 16) ::
      sextetChar urlAlphabet (b % 16 * 4 + c / 64) :: sextetChar urlAlphabet (c % 64) ::
      b64UrlChars rest

def urlIdx (c : Char) : Nat := urlAlphabet.indexOf c

def stdIdx (c : Char) : Nat := stdAlphabet.indexOf c

/-- Decoder for unpadded base64url character lists. -/
def b64UrlDecodeChars : List Char → List Nat
  | [] => []
  | [_] => []
  | [c1, c2] => [urlIdx c1 * 4 + urlIdx c2 / 16]
  | [c1, c2, c3] => [urlIdx c1 * 4 + urlIdx c2 / 16, urlIdx c2 % 16 * 16 + urlIdx c3 / 4]
  | c1 :: c2 :: c3 :: c4 :: rest =>
      (urlIdx c1 * 4 + urlIdx c2 / 16) :: (urlIdx c2 % 16 * 16 + urlIdx c3 / 4) ::
      (urlIdx c3 % 4 * 64 + urlIdx c4) :: b64UrlDecodeChars rest

/-- Decoder for padded standard base64 character lists. -/
def b64PadDecodeChars : List Char → List Nat
  | c1 :: c2 :: c3 :: c4 :: rest =>
      if c3 = '=' then [stdIdx c1 * 4 + stdIdx c2 / 16]
      else if c4 = '=' then
        [stdIdx c1 * 4 + stdIdx c2 / 16, stdIdx c2 % 16 * 16 + stdIdx c3 / 4]
      else
        (stdIdx c1 * 4 + stdIdx c2 / 16) :: (stdIdx c2 % 16 * 16 + stdIdx c3 / 4) ::
        (stdIdx c3 % 4 * 64 + stdIdx c4) :: b64PadDecodeChars rest
  | _ => []

/-! ### UTF-8 (the browser/node `TextEncoder`) -/

def utf8EncodeChar (c : Char) : List Nat :=
  if c.toNat < 0x80 then [c.toNat]
  else if c.toNat < 0x800 then [0xC0 + c.toNat / 0x40, 0x80 + c.toNat % 0x40]
  else if c.toNat < 0x10000 then
    [0xE0 + c.toNat / 0x1000, 0x80 + c.toNat / 0x40 % 0x40, 0x80 + c.toNat % 0x40]
  else
    [0xF0 + c.toNat / 0x40000, 0x80 + c.toNat / 0x1000 % 0x40,
     0x80 + c.toNat / 0x40 % 0x40, 0x80 + c.toNat % 0x40]

def utf8Encode (s : String) : List Nat :=
  s.data.foldr (fun c acc => utf8EncodeChar c ++ acc) []

/-- Fuelled UTF-8 decoder; the fuel only bounds recursion depth and one
full character is produced per step, so any fuel at least the number of
encoded characters gives the same result. -/
def utf8DecodeF : Nat → List Nat → Option (List Char)
  | _, [] => some []
  | 0, _ :: _ => none
  | fuel + 1, a :: rest =>
    if a < 0x80 then (utf8DecodeF fuel rest).map (fun cs => Char.ofNat a :: cs)
    else if a < 0xC0 then none
    else if a < 0xE0 then
      match rest with
      | b :: r2 =>
        if 0x80 ≤ b ∧ b < 0xC0 then
          (utf8DecodeF fuel r2).map (fun cs => Char.ofNat ((a - 0xC0) * 0x40 + (b - 0x80)) :: cs)
        else none
      | [] => none
    else if a < 0xF0 then
      match rest with
      | b :: c :: r3 =>
        if (0x80 ≤ b ∧ b < 0xC0) ∧ (0x80 ≤ c ∧ c < 0xC0) then
          (utf8DecodeF fuel r3).map
            (fun cs => Char.ofNat ((a - 0xE0) * 0x1000 + (b - 0x80) * 0x40 + (c - 0x80)) :: cs)
        else none
      | _ => none
    else if a < 0xF8 then
      match rest with
      | b :: c :: d :: r4 =>
        if (0x80 ≤ b ∧ b < 0xC0) ∧ (0x80 ≤ c ∧ c < 0xC0) ∧ (0x80 ≤ d ∧ d < 0xC0) then
          (utf8DecodeF fuel r4).map
            (fun cs => Char.ofNat
              ((a - 0xF0) * 0x40000 + (b - 0x80) * 0x1000 + (c - 0x80) * 0x40 + (d - 0x80)) :: cs)
        else none
      | _ => none
    else none

def utf8Decode (l : List Nat) : Option (List Char) := utf8DecodeF l.length l

/-! ### The authenticated symmetric cipher and the compact JWE serialization.
The `jose` library is an external dependency, not part of the repository
sources, so its `dir`/`A256GCM` compact encryption is modelled from the
spec: a keystream cipher over the key and a fresh per-call IV plus an
authentication tag, serialized as the five dot-separated base64url
components `header.encryptedKey.iv.ciphertext.tag` with an empty
encrypted-key component for direct key agreement. -/

/-- Modelled from the spec: the A256GCM counter-mode keystream, a concrete
byte-valued function of the key, the IV and the byte position (the real
block cipher is external; only byte-ness and determinism matter here). -/
def gcmKeystream (key iv : List Nat) (i : Nat) : Nat :=
  (key.getD (i % 32) 0 + 7 * iv.getD (i % 12) 0 + 13 * i) % 256

/-- Modelled from the spec: counter-mode encryption/decryption (XOR with the
keystream), an involution. -/
def ctrXor (key iv : List Nat) : Nat → List Nat → List Nat
  | _, [] => []
  | i, p :: rest => (p ^^^ gcmKeystream key iv i) :: ctrXor key iv (i + 1) rest

/-- Modelled from the spec: the 16-byte authentication tag over key, IV and
ciphertext. -/
def gcmTag (key iv ct : List Nat) : List Nat :=
  (List.range 16).map (fun i =>
    (ct.foldl (· + ·) 0 + iv.foldl (· + ·) 0 + key.getD (i % 32) 0 + 31 * i) % 256)

/-- JSON of the protected header set by `LspClient.encrypt`:
`setProtectedHeader(\x7b alg: 'dir', enc: 'A256GCM' \x7d)`. -/
def joseHeaderJson : String := "\x7b\"alg\":\"dir\",\"enc\":\"A256GCM\"\x7d"

def joseProtectedHeaderChars : List Char := b64UrlChars (utf8Encode joseHeaderJson)

def compactJweChars (key iv pt : List Nat) : List Char :=
  joseProtectedHeaderChars ++ '.' :: '.' ::
    (b64UrlChars iv ++ '.' ::
      (b64UrlChars (ctrXor key iv 0 pt) ++ '.' ::
        b64UrlChars (gcmTag key iv (ctrXor key iv 0 pt))))

/-- Modelled from the spec: `jose.CompactEncrypt(new TextEncoder().encode(payload))
.setProtectedHeader(\x7b alg: 'dir', enc: 'A256GCM' \x7d).encrypt(key)` with the
fresh random IV drawn for the call made an explicit argument. -/
def CompactEncrypt (key iv : List Nat) (payload : String) : String :=
  ⟨compactJweChars key iv (utf8Encode payload)⟩

/-- Split a character list at every `'.'`. -/
def splitDots : List Char → List (List Char)
  | [] => [[]]
  | c :: rest =>
    if c = '.' then [] :: splitDots rest
    else
      match splitDots rest with
      | [] => [[c]]
      | xs :: xss => (c :: xs) :: xss

/-- Modelled from the spec: the matching external decryption routine
(`decrypt-with-same-key-and-algorithm`): parse the five compact JWE
components, check the protected header and the authentication tag, undo the
keystream cipher and decode the UTF-8 plaintext. -/
def compactDecrypt (key : List Nat) (jwe : String) : Option String :=
  match splitDots jwe.data with
  | [h, ek, ivc, ctc, tagc] =>
    if h = joseProtectedHeaderChars ∧ ek = [] then
      if b64UrlDecodeChars tagc = gcmTag key (b64UrlDecodeChars ivc) (b64UrlDecodeChars ctc) then
        (utf8Decode (ctrXor key (b64UrlDecodeChars ivc) 0 (b64UrlDecodeChars ctc))).map
          (fun cs => (⟨cs⟩ : String))
      else none
    else none
  | _ => none

/-- IV component of a compact JWE, decoded back to bytes. -/
def jweIvBytes (jwe : String) : Option (List Nat) :=
  match splitDots jwe.data with
  | [_, _, ivc, _, _] => some (b64UrlDecodeChars ivc)
  | _ => none

/-! ### JSON serialization (`JSON.stringify` on the payload shapes the
client builds: strings, string arrays, booleans and flat object literals
with fields in insertion order). -/

def hexDigit (n : Nat) : Char := "0123456789abcdef".data.getD n '0'

def jsonEscapeChar (c : Char) : List Char :=
  if c = '"' then ['\\', '"']
  else if c = '\\' then ['\\', '\\']
  else if c = '\n' then ['\\', 'n']
  else if c = '\r' then ['\\', 'r']
  else if c = '\t' then ['\\', 't']
  else if c.toNat = 8 then ['\\', 'b']
  else if c.toNat = 12 then ['\\', 'f']
  else if c.toNat < 0x20 then
    ['\\', 'u', '0', '0', hexDigit (c.toNat / 16), hexDigit (c.toNat % 16)]
  else [c]

/-- `JSON.stringify` of a string value. -/
def jsonQuote (s : String) : String :=
  ⟨'"' :: s.data.foldr (fun c acc => jsonEscapeChar c ++ acc) ['"']⟩

/-- `JSON.stringify` of an array of strings. -/
def jsonStrArr (xs : List String) : String :=
  "[" ++ String.intercalate "," (xs.map jsonQuote) ++ "]"

/-! ### The LSP client model (`LspClient` in `codeWhispererSession.ts`).
The transport (`vscode-languageclient`'s `LanguageClient`) is opaque: a
`sendRequest` function from request tag and payload string to either a
response value or a rejection. Promise rejection is `Except.error`; the
`undefined` a resolved optional-chain call produces is `JsValue.undefined`.
The module-level `key` and the random IV drawn by `jose` inside `encrypt`
are explicit arguments. -/

inductive JsValue where
  | undefined : JsValue
  | arr : List JsValue → JsValue
  | obj : String → JsValue

inductive RequestType where
  | IndexRequestType
  | BuildIndexRequestType
  | QueryRequestType
  | QueryBM25IndexRequestType
  | QueryVectorIndexRequestType
  | QueryCodeMapIndexRequestType
  | GetUsageRequestType
  | UpdateIndexRequestType
  | UpdateIndexV2RequestType
deriving DecidableEq

structure LanguageClient where
  sendRequest : RequestType → String → Except String JsValue

structure LspClient where
  id : Nat
  client : Option LanguageClient

/-- Net effect of one client method call: the value the returned promise
settles with (`Except.error` = rejected), the log entries recorded, and the
requests dispatched over the channel. -/
structure Outcome where
  result : Except String JsValue
  logs : List String
  sent : List (RequestType × String)

def LspClient.encrypt (key iv : List Nat) (payload : String) : String :=
  CompactEncrypt key iv payload

def indexFilesPayload (request : List String) (rootPath : String) (refresh : Bool) : String :=
  "\x7b\"filePaths\":" ++ jsonStrArr request ++ ",\"rootPath\":" ++ jsonQuote rootPath ++
    ",\"refresh\":" ++ (if refresh then "true" else "false") ++ "\x7d"

def LspClient.indexFiles (self : LspClient) (key iv : List Nat)
    (request : List String) (rootPath : String) (refresh : Bool) : Outcome :=
  let enc := LspClient.encrypt key iv (indexFilesPayload request rootPath refresh)
  match self.client with
  | none => ⟨.ok .undefined, [], []⟩
  | some c =>
    match c.sendRequest .IndexRequestType enc with
    | .ok v => ⟨.ok v, [], [(.IndexRequestType, enc)]⟩
    | .error e => ⟨.ok .undefined, ["LspClient: indexFiles error: " ++ e],
        [(.IndexRequestType, enc)]⟩

structure TextDocument where
  languageId : String

structure TextEditor where
  document : TextDocument

structure BuildIndexRequestPayload where
  filePaths : List String
  projectRoot : String
  config : String
  language : String

def buildIndexPayloadJson (p : BuildIndexRequestPayload) : String :=
  "\x7b\"filePaths\":" ++ jsonStrArr p.filePaths ++ ",\"projectRoot\":" ++
    jsonQuote p.projectRoot ++ ",\"config\":" ++ jsonQuote p.config ++
    ",\"language\":" ++ jsonQuote p.language ++ "\x7d"

/-- `vscode.window.activeTextEditor?.document.languageId ?? 'plaintext'`. -/
def indexFilesV2Language (activeTextEditor : Option TextEditor) : String :=
  match activeTextEditor with
  | some e => e.document.languageId
  | none => "plaintext"

def indexFilesV2Payload (activeTextEditor : Option TextEditor)
    (paths : List String) (rootPath : String) : BuildIndexRequestPayload :=
  { filePaths := paths, projectRoot := rootPath, config := "all",
    language := indexFilesV2Language activeTextEditor }

def LspClient.indexFilesV2 (self : LspClient) (key iv : List Nat)
    (activeTextEditor : Option TextEditor) (paths : List String) (rootPath : String) : Outcome :=
  let enc := LspClient.encrypt key iv
    (buildIndexPayloadJson (indexFilesV2Payload activeTextEditor paths rootPath))
  match self.client with
  | none => ⟨.ok .undefined, [], []⟩
  | some c =>
    match c.sendRequest .BuildIndexRequestType enc with
    | .ok v => ⟨.ok v, [], [(.BuildIndexRequestType, enc)]⟩
    | .error e => ⟨.ok .undefined, ["LspClient: indexFilesV2 error: " ++ e],
        [(.BuildIndexRequestType, enc)]⟩

def queryPayload (request : String) : String :=
  "\x7b\"query\":" ++ jsonQuote request ++ "\x7d"

def filePathPayload (filePath : String) : String :=
  "\x7b\"filePath\":" ++ jsonQuote filePath ++ "\x7d"

def LspClient.query (self : LspClient) (key iv : List Nat) (request : String) : Outcome :=
  let enc := LspClient.encrypt key iv (queryPayload request)
  match self.client with
  | none => ⟨.ok .undefined, [], []⟩
  | some c =>
    match c.sendRequest .QueryRequestType enc with
    | .ok v => ⟨.ok v, [], [(.QueryRequestType, enc)]⟩
    | .error e => ⟨.ok (.arr []), ["LspClient: query error: " ++ e], [(.QueryRequestType, enc)]⟩

/-- The declared type of `queryV2`'s `target` parameter, the closed string
union `'bm25' | 'vector' | 'codemap'`. -/
inductive QueryTarget where
  | bm25
  | vector
  | codemap
deriving DecidableEq

def QueryTarget.toStr : QueryTarget → String
  | .bm25 => "bm25"
  | .vector => "vector"
  | .codemap => "codemap"

/-- The `switch (target)` statement of `queryV2`, at the string level, with
its default branch throwing `invalid target`. -/
def queryV2SwitchTag (target : String) : Except String RequestType :=
  if target = "bm25" then .ok .QueryBM25IndexRequestType
  else if target = "vector" then .ok .QueryVectorIndexRequestType
  else if target = "codemap" then .ok .QueryCodeMapIndexRequestType
  else .error ("Error: invalid target: " ++ target)

def queryV2Request (query : String) (target : String) : String :=
  if target = "codemap" then filePathPayload query else queryPayload query

def LspClient.queryV2 (self : LspClient) (key iv : List Nat)
    (query : String) (target : QueryTarget) : Outcome :=
  let enc := LspClient.encrypt key iv (queryV2Request query target.toStr)
  match queryV2SwitchTag target.toStr with
  | .error e => ⟨.ok (.arr []), ["LspClient: query error: " ++ e], []⟩
  | .ok tag =>
    match self.client with
    | none => ⟨.ok .undefined, [], []⟩
    | some c =>
      match c.sendRequest tag enc with
      | .ok v => ⟨.ok v, [], [(tag, enc)]⟩
      | .error e => ⟨.ok (.arr []), ["LspClient: query error: " ++ e], [(tag, enc)]⟩

def LspClient.getLspServerUsage (self : LspClient) : Outcome :=
  match self.client with
  | some c =>
    match c.sendRequest .GetUsageRequestType "" with
    | .ok v => ⟨.ok v, [], [(.GetUsageRequestType, "")]⟩
    | .error e => ⟨.error e, [], [(.GetUsageRequestType, "")]⟩
  | none => ⟨.ok .undefined, [], []⟩

def LspClient.updateIndex (self : LspClient) (key iv : List Nat) (filePath : String) : Outcome :=
  let enc := LspClient.encrypt key iv (filePathPayload filePath)
  match self.client with
  | none => ⟨.ok .undefined, [], []⟩
  | some c =>
    match c.sendRequest .UpdateIndexRequestType enc with
    | .ok v => ⟨.ok v, [], [(.UpdateIndexRequestType, enc)]⟩
    | .error e => ⟨.ok .undefined, ["LspClient: updateIndex error: " ++ e],
        [(.UpdateIndexRequestType, enc)]⟩

/-- The declared type of `updateIndexV2`'s `mode` parameter, the string
union `'update' | 'remove' | 'add' | 'rename'`. -/
inductive UpdateMode where
  | update
  | remove
  | add
  | rename
deriving DecidableEq

def UpdateMode.toStr : UpdateMode → String
  | .update => "update"
  | .remove => "remove"
  | .add => "add"
  | .rename => "rename"

structure UpdateIndexV2RequestPayload where
  filePaths : List String
  updateMode : String

def updateIndexV2PayloadJson (p : UpdateIndexV2RequestPayload) : String :=
  "\x7b\"filePaths\":" ++ jsonStrArr p.filePaths ++ ",\"updateMode\":" ++
    jsonQuote p.updateMode ++ "\x7d"

def LspClient.updateIndexV2 (self : LspClient) (key iv : List Nat)
    (filePath : List String) (mode : UpdateMode) : Outcome :=
  let enc := LspClient.encrypt key iv
    (updateIndexV2PayloadJson ⟨filePath, mode.toStr⟩)
  match self.client with
  | none => ⟨.ok .undefined, [], []⟩
  | some c =>
    match c.sendRequest .UpdateIndexV2RequestType enc with
    | .ok v => ⟨.ok v, [], [(.UpdateIndexV2RequestType, enc)]⟩
    | .error e => ⟨.ok .undefined, ["LspClient: updateIndexV2 error: " ++ e],
        [(.UpdateIndexV2RequestType, enc)]⟩

/-! ### Module state: the `const key = crypto.randomBytes(32)` at module
load, the lazy singleton `LspClient.instance`, the `writeEncryptionInit`
bootstrap line and the environment signalling in `activate`. -/

def randomBytes32 (entropy : Nat → Nat) : List Nat :=
  (List.range 32).map (fun i => entropy i % 256)

structure LspModule where
  key : List Nat
  instanceSlot : Option LspClient
  nextId : Nat

def moduleLoad (entropy : Nat → Nat) : LspModule :=
  { key := randomBytes32 entropy, instanceSlot := none, nextId := 0 }

/-- `LspClient.instance` (`this.#instance ??= new this()`): object identity
is tracked by the `id` field drawn from a fresh counter. -/
def LspClient.getInstance (m : LspModule) : LspClient × LspModule :=
  match m.instanceSlot with
  | some c => (c, m)
  | none =>
    let c : LspClient := { id := m.nextId, client := none }
    (c, { m with instanceSlot := some c, nextId := m.nextId + 1 })

/-- `JSON.stringify(\x7b version: '1.0', mode: 'JWT', key: key.toString('base64') \x7d)`. -/
def writeEncryptionInitJson (key : List Nat) : String :=
  "\x7b\"version\":\"1.0\",\"mode\":\"JWT\",\"key\":" ++
    jsonQuote (String.mk (b64PadChars key)) ++ "\x7d"

/-- `writeEncryptionInit(stream)`: two `stream.write` calls appending the
JSON line and the newline to the stream's chunk sequence. -/
def writeEncryptionInit (key : List Nat) (stream : List String) : List String :=
  stream ++ [writeEncryptionInitJson key, "\n"]

/-- All data `activate` writes to the spawned child's stdin, in order:
`writeEncryptionInit(child.stdin)` immediately after the spawn and nothing
else. -/
def activateStdinWrites (key : List Nat) : List String :=
  writeEncryptionInit key []

def envGet (k : String) : List (String × String) → Option String
  | [] => none
  | p :: rest => if p.1 = k then some p.2 else envGet k rest

def envDelete (k : String) : List (String × String) → List (String × String)
  | [] => []
  | p :: rest => if p.1 = k then envDelete k rest else p :: envDelete k rest

def envSet (k v : String) (env : List (String × String)) : List (String × String) :=
  (k, v) :: envDelete k env

/-- Environment mutation performed by `activate` before spawning: the GPU
flag branch followed by the worker-thread branch. -/
def activateEnv (gpu : Bool) (workerThreads : Int)
    (env : List (String × String)) : List (String × String) :=
  let env1 := if gpu then envSet "Q_ENABLE_GPU" "true" env else envDelete "Q_ENABLE_GPU" env
  if workerThreads > 0 ∧ workerThreads < 100 then
    envSet "Q_WORKER_THREADS" (toString workerThreads) env1
  else
    envDelete "Q_WORKER_THREADS" env1

/-- A transport whose `sendRequest` rejects every call with message `e`
(the mock rejecting transport of the spec's scenario). -/
def rejectingClient (e : String) : LanguageClient :=
  ⟨fun _ _ => .error e⟩

/-- Whether a log entry is tagged with the given request kind, following the
uniform `LspClient: <kind> error: <e>` format of every catch block. -/
def taggedWith (kind entry : String) : Bool :=
  ("LspClient: " ++ kind ++ " error: ").data.isPrefixOf entry.data

/-- The request tag each `queryV2` target should dispatch (the claim's
mapping: bm25 to the BM25 tag, vector to the vector tag, codemap to the
code-map tag). -/
def queryV2TagOf : QueryTarget → RequestType
  | .bm25 => .QueryBM25IndexRequestType
  | .vector => .QueryVectorIndexRequestType
  | .codemap => .QueryCodeMapIndexRequestType

def newlineCount (s : String) : Nat := s.data.count '\n'

/-! ### Theorems -/

theorem urlAlphabet_length : urlAlphabet.length = 64 := by decide

theorem stdAlphabet_length : stdAlphabet.length = 64 := by decide

theorem urlIdx_sextetChar : ∀ n, n < 64 → urlIdx (sextetChar urlAlphabet n) = n := by decide

theorem stdIdx_sextetChar : ∀ n, n < 64 → stdIdx (sextetChar stdAlphabet n) = n := by decide

theorem sextetChar_url_ne_dot (n : Nat) : sextetChar urlAlphabet n ≠ '.' := by
  by_cases h : n < 64
  · revert h; revert n; decide
  · unfold sextetChar
    rw [List.getD_eq_default]
    · decide
    · rw [urlAlphabet_length]; omega

theorem sextetChar_std_ne (n : Nat) (c : Char)
    (hc : c ∉ stdAlphabet ∧ c ≠ 'A') : sextetChar stdAlphabet n ≠ c := by
  by_cases h : n < 64
  · intro he
    refine hc.1 ?_
    rw [← he]
    unfold sextetChar
    rw [List.getD_eq_getElem _ _ (by rw [stdAlphabet_length]; omega)]
    exact List.getElem_mem _
  · unfold sextetChar
    rw [List.getD_eq_default]
    · exact fun he => hc.2 he.symm
    · rw [stdAlphabet_length]; omega

theorem sextetChar_url_mem_or (n : Nat) :
    sextetChar urlAlphabet n ∈ urlAlphabet ∨ sextetChar urlAlphabet n = 'A' := by
  by_cases h : n < 64
  · refine Or.inl ?_
    unfold sextetChar
    rw [List.getD_eq_getElem _ _ (by rw [urlAlphabet_length]; omega)]
    exact List.getElem_mem _
  · unfold sextetChar
    rw [List.getD_eq_default]
    · exact Or.inr rfl
    · rw [urlAlphabet_length]; omega

theorem dot_not_mem_b64UrlChars (l : List Nat) : '.' ∉ b64UrlChars l := by
  induction l using b64UrlChars.induct with
  | case1 => simp [b64UrlChars]
  | case2 a =>
      simp only [b64UrlChars, List.mem_cons, List.not_mem_nil, or_false]
      exact fun h => h.elim (fun h => (sextetChar_url_ne_dot _ h.symm))
        (fun h => (sextetChar_url_ne_dot _ h.symm))
  | case3 a b =>
      simp only [b64UrlChars, List.mem_cons, List.not_mem_nil, or_false]
      rintro (h | h | h) <;> exact sextetChar_url_ne_dot _ h.symm
  | case4 a b c rest ih =>
      simp only [b64UrlChars, List.mem_cons]
      rintro (h | h | h | h | h)
      · exact sextetChar_url_ne_dot _ h.symm
      · exact sextetChar_url_ne_dot _ h.symm
      · exact sextetChar_url_ne_dot _ h.symm
      · exact sextetChar_url_ne_dot _ h.symm
      · exact ih h

theorem b64UrlDecode_encode : ∀ l : List Nat, (∀ b ∈ l, b < 256) →
    b64UrlDecodeChars (b64UrlChars l) = l := by
  intro l
  induction l using b64UrlChars.induct with
  | case1 => intro _; rfl
  | case2 a =>
      intro h
      have ha : a < 256 := h a (by simp)
      simp only [b64UrlChars, b64UrlDecodeChars]
      rw [urlIdx_sextetChar _ (by omega), urlIdx_sextetChar _ (by omega)]
      congr 1
      omega
  | case3 a b =>
      intro h
      have ha : a < 256 := h a (by simp)
      have hb : b < 256 := h b (by simp)
      simp only [b64UrlChars, b64UrlDecodeChars]
      rw [urlIdx_sextetChar _ (by omega), urlIdx_sextetChar _ (by omega),
        urlIdx_sextetChar _ (by omega)]
      congr 1
      · omega
      · congr 1
        omega
  | case4 a b c rest ih =>
      intro h
      have ha : a < 256 := h a (by simp)
      have hb : b < 256 := h b (by simp)
      have hc : c < 256 := h c (by simp)
      have hrest : ∀ x ∈ rest, x < 256 := fun x hx => h x (by simp [hx])
      simp only [b64UrlChars, b64UrlDecodeChars]
      rw [urlIdx_sextetChar _ (by omega), urlIdx_sextetChar _ (by omega),
        urlIdx_sextetChar _ (by omega), urlIdx_sextetChar _ (by omega)]
      rw [ih hrest]
      congr 1
      · omega
      · congr 1
        · omega
        · congr 1
          omega

theorem sextetChar_std_mem_or (n : Nat) :
    sextetChar stdAlphabet n ∈ stdAlphabet ∨ sextetChar stdAlphabet n = 'A' := by
  by_cases h : n < 64
  · refine Or.inl ?_
    unfold sextetChar
    rw [List.getD_eq_getElem _ _ (by rw [stdAlphabet_length]; omega)]
    exact List.getElem_mem _
  · unfold sextetChar
    rw [List.getD_eq_default]
    · exact Or.inr rfl
    · rw [stdAlphabet_length]; omega

theorem sextetChar_std_mem (n : Nat) : sextetChar stdAlphabet n ∈ stdAlphabet := by
  rcases sextetChar_std_mem_or n with hm | hm
  · exact hm
  · rw [hm]; decide

theorem mem_b64PadChars (c : Char) (l : List Nat) :
    c ∈ b64PadChars l → c ∈ stdAlphabet ∨ c = '=' := by
  induction l using b64PadChars.induct with
  | case1 => intro h; simp [b64PadChars] at h
  | case2 a =>
      intro h
      simp only [b64PadChars, List.mem_cons, List.not_mem_nil, or_false] at h
      rcases h with h | h | h | h
      · exact Or.inl (h ▸ sextetChar_std_mem _)
      · exact Or.inl (h ▸ sextetChar_std_mem _)
      · exact Or.inr h
      · exact Or.inr h
  | case3 a b =>
      intro h
      simp only [b64PadChars, List.mem_cons, List.not_mem_nil, or_false] at h
      rcases h with h | h | h | h
      · exact Or.inl (h ▸ sextetChar_std_mem _)
      · exact Or.inl (h ▸ sextetChar_std_mem _)
      · exact Or.inl (h ▸ sextetChar_std_mem _)
      · exact Or.inr h
  | case4 a b c2 rest ih =>
      intro h
      simp only [b64PadChars, List.mem_cons] at h
      rcases h with h | h | h | h | h
      · exact Or.inl (h ▸ sextetChar_std_mem _)
      · exact Or.inl (h ▸ sextetChar_std_mem _)
      · exact Or.inl (h ▸ sextetChar_std_mem _)
      · exact Or.inl (h ▸ sextetChar_std_mem _)
      · exact ih h

theorem b64PadDecode_encode : ∀ l : List Nat, (∀ b ∈ l, b < 256) →
    b64PadDecodeChars (b64PadChars l) = l := by
  intro l
  induction l using b64PadChars.induct with
  | case1 => intro _; rfl
  | case2 a =>
      intro h
      have ha : a < 256 := h a (by simp)
      simp only [b64PadChars, b64PadDecodeChars, if_true, eq_self_iff_true]
      rw [stdIdx_sextetChar _ (by omega), stdIdx_sextetChar _ (by omega)]
      congr 1
      omega
  | case3 a b =>
      intro h
      have ha : a < 256 := h a (by simp)
      have hb : b < 256 := h b (by simp)
      simp only [b64PadChars, b64PadDecodeChars, if_true, eq_self_iff_true]
      rw [if_neg (sextetChar_std_ne _ _ (by decide))]
      rw [stdIdx_sextetChar _ (by omega), stdIdx_sextetChar _ (by omega),
        stdIdx_sextetChar _ (by omega)]
      congr 1
      · omega
      · congr 1
        omega
  | case4 a b c rest ih =>
      intro h
      have ha : a < 256 := h a (by simp)
      have hb : b < 256 := h b (by simp)
      have hc : c < 256 := h c (by simp)
      have hrest : ∀ x ∈ rest, x < 256 := fun x hx => h x (by simp [hx])
      simp only [b64PadChars, b64PadDecodeChars]
      rw [if_neg (sextetChar_std_ne _ _ (by decide)),
        if_neg (sextetChar_std_ne _ _ (by decide))]
      rw [stdIdx_sextetChar _ (by omega), stdIdx_sextetChar _ (by omega),
        stdIdx_sextetChar _ (by omega), stdIdx_sextetChar _ (by omega)]
      rw [ih hrest]
      congr 1
      · omega
      · congr 1
        · omega
        · congr 1
          omega

theorem char_toNat_lt (c : Char) : c.toNat < 0x110000 := by
  rcases c.valid with h | h
  · exact Nat.lt_trans h (by norm_num)
  · exact h.2

theorem utf8EncodeChar_lt (c : Char) : ∀ b ∈ utf8EncodeChar c, b < 256 := by
  intro b hb
  have hv := char_toNat_lt c
  unfold utf8EncodeChar at hb
  by_cases h1 : c.toNat < 0x80
  · rw [if_pos h1] at hb
    simp only [List.mem_cons, List.not_mem_nil, or_false] at hb
    omega
  · rw [if_neg h1] at hb
    by_cases h2 : c.toNat < 0x800
    · rw [if_pos h2] at hb
      simp only [List.mem_cons, List.not_mem_nil, or_false] at hb
      rcases hb with hb | hb <;> omega
    · rw [if_neg h2] at hb
      by_cases h3 : c.toNat < 0x10000
      · rw [if_pos h3] at hb
        simp only [List.mem_cons, List.not_mem_nil, or_false] at hb
        rcases hb with hb | hb | hb <;> omega
      · rw [if_neg h3] at hb
        simp only [List.mem_cons, List.not_mem_nil, or_false] at hb
        rcases hb with hb | hb | hb | hb <;> omega

theorem utf8DecodeF_succ_cons (f a : Nat) (rest : List Nat) :
    utf8DecodeF (f + 1) (a :: rest) =
      (if a < 0x80 then (utf8DecodeF f rest).map (fun cs => Char.ofNat a :: cs)
      else if a < 0xC0 then none
      else if a < 0xE0 then
        match rest with
        | b :: r2 =>
          if 0x80 ≤ b ∧ b < 0xC0 then
            (utf8DecodeF f r2).map (fun cs => Char.ofNat ((a - 0xC0) * 0x40 + (b - 0x80)) :: cs)
          else none
        | [] => none
      else if a < 0xF0 then
        match rest with
        | b :: c :: r3 =>
          if (0x80 ≤ b ∧ b < 0xC0) ∧ (0x80 ≤ c ∧ c < 0xC0) then
            (utf8DecodeF f r3).map
              (fun cs => Char.ofNat ((a - 0xE0) * 0x1000 + (b - 0x80) * 0x40 + (c - 0x80)) :: cs)
          else none
        | _ => none
      else if a < 0xF8 then
        match rest with
        | b :: c :: d :: r4 =>
          if (0x80 ≤ b ∧ b < 0xC0) ∧ (0x80 ≤ c ∧ c < 0xC0) ∧ (0x80 ≤ d ∧ d < 0xC0) then
            (utf8DecodeF f r4).map
              (fun cs => Char.ofNat
                ((a - 0xF0) * 0x40000 + (b - 0x80) * 0x1000 + (c - 0x80) * 0x40 + (d - 0x80)) :: cs)
          else none
        | _ => none
      else none) := rfl

theorem utf8DecodeF_one (f x : Nat) (rest : List Nat) (hx : x < 0x80) :
    utf8DecodeF (f + 1) (x :: rest) =
      (utf8DecodeF f rest).map (fun cs => Char.ofNat x :: cs) := by
  rw [utf8DecodeF_succ_cons]
  rw [if_pos hx]

theorem utf8DecodeF_two (f x y : Nat) (rest : List Nat) (hx : 0xC0 ≤ x) (hx2 : x < 0xE0) :
    utf8DecodeF (f + 1) (x :: y :: rest) =
      (if 0x80 ≤ y ∧ y < 0xC0 then
        (utf8DecodeF f rest).map (fun cs => Char.ofNat ((x - 0xC0) * 0x40 + (y - 0x80)) :: cs)
      else none) := by
  rw [utf8DecodeF_succ_cons]
  rw [if_neg (by omega), if_neg (by omega), if_pos (by omega)]

theorem utf8DecodeF_three (f x y z : Nat) (rest : List Nat) (hx : 0xE0 ≤ x) (hx2 : x < 0xF0) :
    utf8DecodeF (f + 1) (x :: y :: z :: rest) =
      (if (0x80 ≤ y ∧ y < 0xC0) ∧ (0x80 ≤ z ∧ z < 0xC0) then
        (utf8DecodeF f rest).map
          (fun cs => Char.ofNat ((x - 0xE0) * 0x1000 + (y - 0x80) * 0x40 + (z - 0x80)) :: cs)
      else none) := by
  rw [utf8DecodeF_succ_cons]
  rw [if_neg (by omega), if_neg (by omega), if_neg (by omega), if_pos (by omega)]

theorem utf8DecodeF_four (f x y z w : Nat) (rest : List Nat) (hx : 0xF0 ≤ x) (hx2 : x < 0xF8) :
    utf8DecodeF (f + 1) (x :: y :: z :: w :: rest) =
      (if (0x80 ≤ y ∧ y < 0xC0) ∧ (0x80 ≤ z ∧ z < 0xC0) ∧ (0x80 ≤ w ∧ w < 0xC0) then
        (utf8DecodeF f rest).map
          (fun cs => Char.ofNat
            ((x - 0xF0) * 0x40000 + (y - 0x80) * 0x1000 + (z - 0x80) * 0x40 + (w - 0x80)) :: cs)
      else none) := by
  rw [utf8DecodeF_succ_cons]
  rw [if_neg (by omega), if_neg (by omega), if_neg (by omega), if_neg (by omega),
    if_pos (by omega)]

theorem utf8DecodeF_encodeChar_append (c : Char) (rest : List Nat) (f : Nat) :
    utf8DecodeF (f + 1) (utf8EncodeChar c ++ rest) =
      (utf8DecodeF f rest).map (fun cs => c :: cs) := by
  have hv := char_toNat_lt c
  have hofNat : Char.ofNat c.toNat = c := Char.ofNat_toNat c
  by_cases h1 : c.toNat < 0x80
  · have e : utf8EncodeChar c = [c.toNat] := by
      unfold utf8EncodeChar
      rw [if_pos h1]
    rw [e]
    simp only [List.cons_append, List.nil_append]
    rw [utf8DecodeF_one f _ rest h1, hofNat]
  · by_cases h2 : c.toNat < 0x800
    · have e : utf8EncodeChar c = [0xC0 + c.toNat / 0x40, 0x80 + c.toNat % 0x40] := by
        unfold utf8EncodeChar
        rw [if_neg h1, if_pos h2]
      rw [e]
      simp only [List.cons_append, List.nil_append]
      rw [utf8DecodeF_two f _ _ rest (by omega) (by omega)]
      rw [if_pos (by omega)]
      have hval : (0xC0 + c.toNat / 0x40 - 0xC0) * 0x40 +
          (0x80 + c.toNat % 0x40 - 0x80) = c.toNat := by
        omega
      rw [hval, hofNat]
    · by_cases h3 : c.toNat < 0x10000
      · have e : utf8EncodeChar c =
            [0xE0 + c.toNat / 0x1000, 0x80 + c.toNat / 0x40 % 0x40, 0x80 + c.toNat % 0x40] := by
          unfold utf8EncodeChar
          rw [if_neg h1, if_neg h2, if_pos h3]
        rw [e]
        simp only [List.cons_append, List.nil_append]
        rw [utf8DecodeF_three f _ _ _ rest (by omega) (by omega)]
        rw [if_pos (by refine ⟨⟨?_, ?_⟩, ?_, ?_⟩ <;> omega)]
        have hval : (0xE0 + c.toNat / 0x1000 - 0xE0) * 0x1000 +
            (0x80 + c.toNat / 0x40 % 0x40 - 0x80) * 0x40 +
            (0x80 + c.toNat % 0x40 - 0x80) = c.toNat := by
          omega
        rw [hval, hofNat]
      · have e : utf8EncodeChar c =
            [0xF0 + c.toNat / 0x40000, 0x80 + c.toNat / 0x1000 % 0x40,
             0x80 + c.toNat / 0x40 % 0x40, 0x80 + c.toNat % 0x40] := by
          unfold utf8EncodeChar
          rw [if_neg h1, if_neg h2, if_neg h3]
        rw [e]
        simp only [List.cons_append, List.nil_append]
        rw [utf8DecodeF_four f _ _ _ _ rest (by omega) (by omega)]
        rw [if_pos (by refine ⟨⟨?_, ?_⟩, ⟨?_, ?_⟩, ?_, ?_⟩ <;> omega)]
        have hval : (0xF0 + c.toNat / 0x40000 - 0xF0) * 0x40000 +
            (0x80 + c.toNat / 0x1000 % 0x40 - 0x80) * 0x1000 +
            (0x80 + c.toNat / 0x40 % 0x40 - 0x80) * 0x40 +
            (0x80 + c.toNat % 0x40 - 0x80) = c.toNat := by
          omega
        rw [hval, hofNat]

theorem utf8DecodeF_nil (f : Nat) : utf8DecodeF f [] = some [] := by
  cases f <;> rfl

theorem utf8DecodeF_foldr (cs : List Char) : ∀ f, cs.length ≤ f →
    utf8DecodeF f (cs.foldr (fun c acc => utf8EncodeChar c ++ acc) []) = some cs := by
  induction cs with
  | nil => intro f _; exact utf8DecodeF_nil f
  | cons c cs ih =>
      intro f hf
      match f with
      | 0 => simp at hf
      | f + 1 =>
          show utf8DecodeF (f + 1)
            (utf8EncodeChar c ++ cs.foldr (fun c acc => utf8EncodeChar c ++ acc) []) = _
          rw [utf8DecodeF_encodeChar_append, ih f (by simpa using Nat.lt_succ_iff.mp hf)]
          rfl

theorem utf8EncodeChar_length_pos (c : Char) : 1 ≤ (utf8EncodeChar c).length := by
  unfold utf8EncodeChar
  by_cases h1 : c.toNat < 0x80
  · rw [if_pos h1]; simp
  · rw [if_neg h1]
    by_cases h2 : c.toNat < 0x800
    · rw [if_pos h2]; simp
    · rw [if_neg h2]
      by_cases h3 : c.toNat < 0x10000
      · rw [if_pos h3]; simp
      · rw [if_neg h3]; simp

theorem length_le_utf8Encode (s : String) : s.data.length ≤ (utf8Encode s).length := by
  unfold utf8Encode
  induction s.data with
  | nil => simp
  | cons c cs ih =>
      simp only [List.foldr_cons, List.length_append, List.length_cons]
      have := utf8EncodeChar_length_pos c
      omega

theorem utf8Decode_utf8Encode (s : String) : utf8Decode (utf8Encode s) = some s.data := by
  unfold utf8Decode
  exact utf8DecodeF_foldr s.data _ (length_le_utf8Encode s)

theorem utf8Encode_lt (s : String) : ∀ b ∈ utf8Encode s, b < 256 := by
  unfold utf8Encode
  induction s.data with
  | nil => intro b hb; simp at hb
  | cons c cs ih =>
      intro b hb
      simp only [List.foldr_cons, List.mem_append] at hb
      rcases hb with hb | hb
      · exact utf8EncodeChar_lt c b hb
      · exact ih b hb

theorem splitDots_no_dot : ∀ l : List Char, '.' ∉ l → splitDots l = [l] := by
  intro l
  induction l with
  | nil => intro _; rfl
  | cons c rest ih =>
      intro h
      have hc : ¬ c = '.' := fun he => h (he ▸ List.mem_cons_self c rest)
      have hrest : '.' ∉ rest := fun hm => h (List.mem_cons_of_mem c hm)
      rw [splitDots]
      rw [if_neg hc, ih hrest]

theorem splitDots_append : ∀ xs rest : List Char, '.' ∉ xs →
    splitDots (xs ++ '.' :: rest) = xs :: splitDots rest := by
  intro xs
  induction xs with
  | nil =>
      intro rest _
      simp only [List.nil_append]
      rw [splitDots]
      rw [if_pos rfl]
  | cons c xs ih =>
      intro rest h
      have hc : ¬ c = '.' := fun he => h (he ▸ List.mem_cons_self c xs)
      have hxs : '.' ∉ xs := fun hm => h (List.mem_cons_of_mem c hm)
      simp only [List.cons_append]
      rw [splitDots]
      rw [if_neg hc, ih rest hxs]

theorem dot_not_mem_header : '.' ∉ joseProtectedHeaderChars :=
  dot_not_mem_b64UrlChars _

theorem splitDots_compactJwe (key iv pt : List Nat) :
    splitDots (compactJweChars key iv pt) =
      [joseProtectedHeaderChars, [], b64UrlChars iv, b64UrlChars (ctrXor key iv 0 pt),
        b64UrlChars (gcmTag key iv (ctrXor key iv 0 pt))] := by
  unfold compactJweChars
  rw [splitDots_append _ _ dot_not_mem_header]
  rw [splitDots]
  rw [if_pos rfl]
  rw [splitDots_append _ _ (dot_not_mem_b64UrlChars iv)]
  rw [splitDots_append _ _ (dot_not_mem_b64UrlChars _)]
  rw [splitDots_no_dot _ (dot_not_mem_b64UrlChars _)]

theorem ctrXor_ctrXor (key iv : List Nat) : ∀ (i : Nat) (pt : List Nat),
    ctrXor key iv i (ctrXor key iv i pt) = pt := by
  intro i pt
  induction pt generalizing i with
  | nil => rfl
  | cons p rest ih =>
      rw [ctrXor, ctrXor]
      rw [Nat.xor_cancel_right, ih (i + 1)]

theorem gcmKeystream_lt (key iv : List Nat) (i : Nat) : gcmKeystream key iv i < 256 :=
  Nat.mod_lt _ (by norm_num)

theorem ctrXor_lt (key iv : List Nat) : ∀ (i : Nat) (pt : List Nat),
    (∀ b ∈ pt, b < 256) → ∀ b ∈ ctrXor key iv i pt, b < 256 := by
  intro i pt
  induction pt generalizing i with
  | nil => intro _ b hb; simp [ctrXor] at hb
  | cons p rest ih =>
      intro h b hb
      rw [ctrXor] at hb
      rcases List.mem_cons.mp hb with hb | hb
      · have hp : p < 256 := h p (by simp)
        have hk := gcmKeystream_lt key iv i
        have : p ^^^ gcmKeystream key iv i < 2 ^ 8 :=
          Nat.xor_lt_two_pow (by simpa using hp) (by simpa using hk)
        simpa [hb] using this
      · exact ih (i + 1) (fun x hx => h x (by simp [hx])) b hb

theorem gcmTag_lt (key iv ct : List Nat) : ∀ b ∈ gcmTag key iv ct, b < 256 := by
  intro b hb
  unfold gcmTag at hb
  rcases List.mem_map.mp hb with ⟨i, _, hi⟩
  rw [← hi]
  exact Nat.mod_lt _ (by norm_num)

theorem compactDecrypt_of_split (key : List Nat) (jwe : String)
    (h ek ivc ctc tagc : List Char)
    (hsplit : splitDots jwe.data = [h, ek, ivc, ctc, tagc]) :
    compactDecrypt key jwe =
      (if h = joseProtectedHeaderChars ∧ ek = [] then
        if b64UrlDecodeChars tagc =
            gcmTag key (b64UrlDecodeChars ivc) (b64UrlDecodeChars ctc) then
          (utf8Decode (ctrXor key (b64UrlDecodeChars ivc) 0 (b64UrlDecodeChars ctc))).map
            (fun cs => (⟨cs⟩ : String))
        else none
      else none) := by
  unfold compactDecrypt
  rw [hsplit]

theorem jweIvBytes_of_split (jwe : String) (h ek ivc ctc tagc : List Char)
    (hsplit : splitDots jwe.data = [h, ek, ivc, ctc, tagc]) :
    jweIvBytes jwe = some (b64UrlDecodeChars ivc) := by
  unfold jweIvBytes
  rw [hsplit]

theorem compactDecrypt_CompactEncrypt (key iv : List Nat) (payload : String)
    (hiv : ∀ b ∈ iv, b < 256) :
    compactDecrypt key (CompactEncrypt key iv payload) = some payload := by
  have hct : ∀ b ∈ ctrXor key iv 0 (utf8Encode payload), b < 256 :=
    ctrXor_lt key iv 0 _ (utf8Encode_lt payload)
  have hsplit : splitDots (CompactEncrypt key iv payload).data =
      [joseProtectedHeaderChars, [], b64UrlChars iv,
        b64UrlChars (ctrXor key iv 0 (utf8Encode payload)),
        b64UrlChars (gcmTag key iv (ctrXor key iv 0 (utf8Encode payload)))] :=
    splitDots_compactJwe key iv (utf8Encode payload)
  rw [compactDecrypt_of_split key _ _ _ _ _ _ hsplit]
  rw [if_pos ⟨rfl, rfl⟩]
  rw [b64UrlDecode_encode _ hiv, b64UrlDecode_encode _ hct,
    b64UrlDecode_encode _ (gcmTag_lt key iv _)]
  rw [if_pos rfl]
  rw [ctrXor_ctrXor, utf8Decode_utf8Encode]
  rfl

theorem jweIvBytes_CompactEncrypt (key iv : List Nat) (payload : String)
    (hiv : ∀ b ∈ iv, b < 256) :
    jweIvBytes (CompactEncrypt key iv payload) = some iv := by
  have hsplit : splitDots (CompactEncrypt key iv payload).data =
      [joseProtectedHeaderChars, [], b64UrlChars iv,
        b64UrlChars (ctrXor key iv 0 (utf8Encode payload)),
        b64UrlChars (gcmTag key iv (ctrXor key iv 0 (utf8Encode payload)))] :=
    splitDots_compactJwe key iv (utf8Encode payload)
  rw [jweIvBytes_of_split _ _ _ _ _ _ hsplit]
  rw [b64UrlDecode_encode _ hiv]

theorem CompactEncrypt_inj_iv (key iv1 iv2 : List Nat) (payload : String)
    (h1 : ∀ b ∈ iv1, b < 256) (h2 : ∀ b ∈ iv2, b < 256) (hne : iv1 ≠ iv2) :
    CompactEncrypt key iv1 payload ≠ CompactEncrypt key iv2 payload := by
  intro he
  refine hne ?_
  have e1 := jweIvBytes_CompactEncrypt key iv1 payload h1
  have e2 := jweIvBytes_CompactEncrypt key iv2 payload h2
  rw [he, e2] at e1
  exact (Option.some.injEq _ _).mp e1.symm

/-! ### Supporting lemmas for the claims -/

theorem envGet_envDelete_self (k : String) (env : List (String × String)) :
    envGet k (envDelete k env) = none := by
  induction env with
  | nil => rfl
  | cons p rest ih =>
      rw [envDelete]
      by_cases h : p.1 = k
      · rw [if_pos h]
        exact ih
      · rw [if_neg h, envGet, if_neg h]
        exact ih

theorem envGet_envDelete_other (k k' : String) (env : List (String × String))
    (h : k ≠ k') : envGet k (envDelete k' env) = envGet k env := by
  induction env with
  | nil => rfl
  | cons p rest ih =>
      rw [envDelete]
      by_cases hp : p.1 = k'
      · have hpk : ¬ p.1 = k := fun he => h (hp ▸ he ▸ rfl)
        rw [if_pos hp, envGet, if_neg hpk]
        exact ih
      · rw [if_neg hp, envGet, envGet]
        by_cases hpk : p.1 = k
        · rw [if_pos hpk, if_pos hpk]
        · rw [if_neg hpk, if_neg hpk]
          exact ih

theorem envGet_envSet_self (k v : String) (env : List (String × String)) :
    envGet k (envSet k v env) = some v := by
  rw [envSet, envGet, if_pos rfl]

theorem envGet_envSet_other (k k' v : String) (env : List (String × String))
    (h : k ≠ k') : envGet k (envSet k' v env) = envGet k env := by
  rw [envSet, envGet, if_neg (fun he => h he.symm)]
  exact envGet_envDelete_other k k' env h

theorem jsonEscapeChar_of_std (c : Char) (h : c ∈ stdAlphabet ∨ c = '=') :
    jsonEscapeChar c = [c] := by
  rcases h with h | h
  · revert h
    revert c
    decide
  · rw [h]
    decide

theorem foldr_escape_id : ∀ l : List Char, (∀ c ∈ l, jsonEscapeChar c = [c]) →
    l.foldr (fun c acc => jsonEscapeChar c ++ acc) ['"'] = l ++ ['"'] := by
  intro l
  induction l with
  | nil => intro _; rfl
  | cons c rest ih =>
      intro h
      simp only [List.foldr_cons, List.cons_append]
      rw [h c (by simp), ih (fun x hx => h x (by simp [hx]))]
      rfl

theorem jsonQuote_b64Pad (key : List Nat) :
    jsonQuote (String.mk (b64PadChars key)) =
      String.mk ('"' :: (b64PadChars key ++ ['"'])) := by
  unfold jsonQuote
  exact congrArg (fun l => String.mk ('"' :: l))
    (foldr_escape_id _ (fun c hc => jsonEscapeChar_of_std c (mem_b64PadChars c key hc)))

theorem newline_not_mem_b64PadChars (key : List Nat) : '\n' ∉ b64PadChars key := by
  intro h
  rcases mem_b64PadChars _ _ h with h | h
  · revert h; decide
  · revert h; decide

theorem newlineCount_writeEncryptionInitJson (key : List Nat) :
    newlineCount (writeEncryptionInitJson key) = 0 := by
  unfold newlineCount writeEncryptionInitJson
  rw [jsonQuote_b64Pad]
  rw [String.data_append, String.data_append]
  rw [List.count_append, List.count_append]
  have h1 : List.count '\n' ("\x7b\"version\":\"1.0\",\"mode\":\"JWT\",\"key\":").data = 0 := by
    decide
  have h2 : List.count '\n' ("\x7d").data = 0 := by decide
  have h3 : List.count '\n' (String.mk ('"' :: (b64PadChars key ++ ['"']))).data = 0 := by
    show List.count '\n' ('"' :: (b64PadChars key ++ ['"'])) = 0
    rw [List.count_cons, List.count_append]
    rw [List.count_eq_zero.mpr (newline_not_mem_b64PadChars key)]
    decide
  rw [h1, h2, h3]

theorem CompactEncrypt_ne_empty (key iv : List Nat) (p : String) :
    CompactEncrypt key iv p ≠ "" := by
  intro h
  have hd : (CompactEncrypt key iv p).data = "".data := congrArg String.data h
  rw [show (CompactEncrypt key iv p).data = compactJweChars key iv (utf8Encode p) from rfl]
    at hd
  unfold compactJweChars at hd
  simp at hd

/-! ### The claims -/

/-- C1, counterexample: with no channel set, `query("foo")` resolves to
`undefined`, not to the empty sequence, and nothing is logged — the
optional-chaining call never throws, so the catch/log path never runs. -/
theorem C1_absent_channel_counterexample :
    (LspClient.query ⟨0, none⟩ [] [] "foo").result = Except.ok JsValue.undefined ∧
    (LspClient.query ⟨0, none⟩ [] [] "foo").result ≠ Except.ok (JsValue.arr []) ∧
    (LspClient.query ⟨0, none⟩ [] [] "foo").logs = [] := by
  refine ⟨rfl, ?_, rfl⟩
  intro h
  rw [show (LspClient.query ⟨0, none⟩ [] [] "foo").result = Except.ok JsValue.undefined
    from rfl] at h
  exact JsValue.noConfusion (Except.ok.inj h)

/-- C1, amended: for every request kind (indexFiles, indexFilesV2, query,
queryV2, updateIndex, updateIndexV2), if the channel handle is absent the
call resolves without throwing to `undefined` (also for the listing kinds),
nothing is sent, and nothing is logged. -/
theorem C1_absent_channel_amended (key iv : List Nat) (i : Nat) (ps : List String)
    (rp fp q : String) (refresh : Bool) (ae : Option TextEditor)
    (t : QueryTarget) (m : UpdateMode) :
    LspClient.indexFiles ⟨i, none⟩ key iv ps rp refresh =
      ⟨.ok .undefined, [], []⟩ ∧
    LspClient.indexFilesV2 ⟨i, none⟩ key iv ae ps rp = ⟨.ok .undefined, [], []⟩ ∧
    LspClient.query ⟨i, none⟩ key iv q = ⟨.ok .undefined, [], []⟩ ∧
    LspClient.queryV2 ⟨i, none⟩ key iv q t = ⟨.ok .undefined, [], []⟩ ∧
    LspClient.updateIndex ⟨i, none⟩ key iv fp = ⟨.ok .undefined, [], []⟩ ∧
    LspClient.updateIndexV2 ⟨i, none⟩ key iv ps m = ⟨.ok .undefined, [], []⟩ := by
  refine ⟨rfl, rfl, rfl, ?_, rfl, rfl⟩
  cases t <;> rfl

/-- C2, counterexample: a rejecting transport on `queryV2` produces one log
entry tagged `query` — the kind tag of the `query` method — not one tagged
with `queryV2`'s own kind. -/
theorem C2_rejection_tag_counterexample :
    (LspClient.queryV2 ⟨0, some (rejectingClient "boom")⟩ [] [] "q" QueryTarget.bm25).logs =
      ["LspClient: query error: boom"] ∧
    taggedWith "queryV2" "LspClient: query error: boom" = false ∧
    taggedWith "query" "LspClient: query error: boom" = true := by
  refine ⟨rfl, ?_, ?_⟩ <;> decide

/-- C2, amended: when the transport rejects with message `e`, every request
kind other than get-usage resolves to its sentinel with exactly one log
entry; the entry is tagged with the originating kind for indexFiles,
indexFilesV2, query, updateIndex and updateIndexV2 (in particular
updateIndexV2 resolves to `undefined` with exactly one entry tagged
`updateIndexV2`), while queryV2 logs exactly one entry tagged `query`,
reusing the query kind's tag instead of its own. -/
theorem C2_rejection_logged_amended (key iv : List Nat) (i : Nat) (e : String)
    (ps : List String) (rp fp q : String) (refresh : Bool) (ae : Option TextEditor)
    (t : QueryTarget) (m : UpdateMode) :
    (LspClient.indexFiles ⟨i, some (rejectingClient e)⟩ key iv ps rp refresh).result =
      .ok .undefined ∧
    (LspClient.indexFiles ⟨i, some (rejectingClient e)⟩ key iv ps rp refresh).logs =
      ["LspClient: indexFiles error: " ++ e] ∧
    (LspClient.indexFilesV2 ⟨i, some (rejectingClient e)⟩ key iv ae ps rp).result =
      .ok .undefined ∧
    (LspClient.indexFilesV2 ⟨i, some (rejectingClient e)⟩ key iv ae ps rp).logs =
      ["LspClient: indexFilesV2 error: " ++ e] ∧
    (LspClient.query ⟨i, some (rejectingClient e)⟩ key iv q).result = .ok (.arr []) ∧
    (LspClient.query ⟨i, some (rejectingClient e)⟩ key iv q).logs =
      ["LspClient: query error: " ++ e] ∧
    (LspClient.queryV2 ⟨i, some (rejectingClient e)⟩ key iv q t).result = .ok (.arr []) ∧
    (LspClient.queryV2 ⟨i, some (rejectingClient e)⟩ key iv q t).logs =
      ["LspClient: query error: " ++ e] ∧
    (LspClient.updateIndex ⟨i, some (rejectingClient e)⟩ key iv fp).result =
      .ok .undefined ∧
    (LspClient.updateIndex ⟨i, some (rejectingClient e)⟩ key iv fp).logs =
      ["LspClient: updateIndex error: " ++ e] ∧
    (LspClient.updateIndexV2 ⟨i, some (rejectingClient e)⟩ key iv ps m).result =
      .ok .undefined ∧
    (LspClient.updateIndexV2 ⟨i, some (rejectingClient e)⟩ key iv ps m).logs =
      ["LspClient: updateIndexV2 error: " ++ e] := by
  refine ⟨rfl, rfl, rfl, rfl, rfl, rfl, ?_, ?_, rfl, rfl, rfl, rfl⟩ <;> cases t <;> rfl

/-- C3: `encrypt` wraps the UTF-8 bytes of the payload in a compact JWE under
the direct-key-agreement A256GCM header; two encryptions of the same
plaintext under the same key with distinct fresh IVs yield different
ciphertexts; and the matching decryption routine under the same key recovers
the original plaintext. -/
theorem C3_encrypt_roundtrip_and_fresh (key iv1 iv2 : List Nat) (payload : String)
    (h1 : ∀ b ∈ iv1, b < 256) (h2 : ∀ b ∈ iv2, b < 256) (hne : iv1 ≠ iv2) :
    LspClient.encrypt key iv1 payload ≠ LspClient.encrypt key iv2 payload ∧
    compactDecrypt key (LspClient.encrypt key iv1 payload) = some payload ∧
    (LspClient.encrypt key iv1 payload).data =
      b64UrlChars (utf8Encode joseHeaderJson) ++ '.' :: '.' ::
        (b64UrlChars iv1 ++ '.' ::
          (b64UrlChars (ctrXor key iv1 0 (utf8Encode payload)) ++ '.' ::
            b64UrlChars (gcmTag key iv1 (ctrXor key iv1 0 (utf8Encode payload))))) :=
  ⟨CompactEncrypt_inj_iv key iv1 iv2 payload h1 h2 hne,
   compactDecrypt_CompactEncrypt key iv1 payload h1, rfl⟩

/-- C3, witness: concrete 12-byte IVs and the payload `"foo"` satisfy the
hypotheses, and the two ciphertexts differ. -/
theorem C3_encrypt_witness :
    (∀ b ∈ List.range 12, b < 256) ∧
    (∀ b ∈ List.replicate 12 0, b < 256) ∧
    List.range 12 ≠ List.replicate 12 0 ∧
    LspClient.encrypt (List.range 32) (List.range 12) "foo" ≠
      LspClient.encrypt (List.range 32) (List.replicate 12 0) "foo" :=
  ⟨by decide, by decide, by decide,
   (C3_encrypt_roundtrip_and_fresh (List.range 32) (List.range 12)
     (List.replicate 12 0) "foo" (by decide) (by decide) (by decide)).1⟩

/-- C4: `writeEncryptionInit` appends exactly two chunks to the stream — the
JSON object with fields version `"1.0"`, mode `"JWT"` and key the standard
base64 of the session key, then a single newline; the JSON chunk holds no
newline, and on the child's stdin these are the first and only writes
`activate` makes. -/
theorem C4_writeEncryptionInit_line (key : List Nat) (stream0 : List String) :
    writeEncryptionInit key stream0 = stream0 ++ [writeEncryptionInitJson key, "\n"] ∧
    writeEncryptionInitJson key =
      "\x7b\"version\":\"1.0\",\"mode\":\"JWT\",\"key\":\"" ++
        String.mk (b64PadChars key) ++ "\"\x7d" ∧
    newlineCount (writeEncryptionInitJson key) = 0 ∧
    newlineCount "\n" = 1 ∧
    activateStdinWrites key = [writeEncryptionInitJson key, "\n"] := by
  refine ⟨rfl, ?_, newlineCount_writeEncryptionInitJson key, rfl, rfl⟩
  unfold writeEncryptionInitJson
  rw [jsonQuote_b64Pad]
  apply String.ext
  rw [String.data_append, String.data_append, String.data_append, String.data_append]
  rw [show ("\x7b\"version\":\"1.0\",\"mode\":\"JWT\",\"key\":\"" : String).data =
    ("\x7b\"version\":\"1.0\",\"mode\":\"JWT\",\"key\":" : String).data ++ ['"'] from by decide]
  rw [show ("\"\x7d" : String).data = '"' :: ("\x7d" : String).data from by decide]
  show _ ++ ('"' :: (b64PadChars key ++ ['"'])) ++ _ = _
  simp

/-- C5: every request kind except get-usage sends exactly one message whose
payload is `encrypt` of its JSON payload; get-usage sends the unencrypted
empty payload, and the empty string is never an `encrypt` output. -/
theorem C5_payloads_encrypted (key iv : List Nat) (i : Nat) (c : LanguageClient)
    (ps : List String) (rp fp q : String) (refresh : Bool) (ae : Option TextEditor)
    (m : UpdateMode) :
    (LspClient.indexFiles ⟨i, some c⟩ key iv ps rp refresh).sent =
      [(.IndexRequestType, LspClient.encrypt key iv (indexFilesPayload ps rp refresh))] ∧
    (LspClient.indexFilesV2 ⟨i, some c⟩ key iv ae ps rp).sent =
      [(.BuildIndexRequestType,
        LspClient.encrypt key iv (buildIndexPayloadJson (indexFilesV2Payload ae ps rp)))] ∧
    (LspClient.query ⟨i, some c⟩ key iv q).sent =
      [(.QueryRequestType, LspClient.encrypt key iv (queryPayload q))] ∧
    (∀ t : QueryTarget, (LspClient.queryV2 ⟨i, some c⟩ key iv q t).sent =
      [(queryV2TagOf t, LspClient.encrypt key iv (queryV2Request q t.toStr))]) ∧
    (LspClient.updateIndex ⟨i, some c⟩ key iv fp).sent =
      [(.UpdateIndexRequestType, LspClient.encrypt key iv (filePathPayload fp))] ∧
    (LspClient.updateIndexV2 ⟨i, some c⟩ key iv ps m).sent =
      [(.UpdateIndexV2RequestType,
        LspClient.encrypt key iv (updateIndexV2PayloadJson ⟨ps, m.toStr⟩))] ∧
    (LspClient.getLspServerUsage ⟨i, some c⟩).sent = [(.GetUsageRequestType, "")] ∧
    (∀ p, LspClient.encrypt key iv p ≠ "") := by
  refine ⟨?_, ?_, ?_, ?_, ?_, ?_, ?_, fun p => CompactEncrypt_ne_empty key iv p⟩
  · cases h : c.sendRequest RequestType.IndexRequestType
        (LspClient.encrypt key iv (indexFilesPayload ps rp refresh)) <;>
      simp [LspClient.indexFiles, h]
  · cases h : c.sendRequest RequestType.BuildIndexRequestType
        (LspClient.encrypt key iv (buildIndexPayloadJson (indexFilesV2Payload ae ps rp))) <;>
      simp [LspClient.indexFilesV2, h]
  · cases h : c.sendRequest RequestType.QueryRequestType
        (LspClient.encrypt key iv (queryPayload q)) <;>
      simp [LspClient.query, h]
  · intro t
    cases t <;>
      [cases h : c.sendRequest RequestType.QueryBM25IndexRequestType
        (LspClient.encrypt key iv (queryV2Request q "bm25"));
       cases h : c.sendRequest RequestType.QueryVectorIndexRequestType
        (LspClient.encrypt key iv (queryV2Request q "vector"));
       cases h : c.sendRequest RequestType.QueryCodeMapIndexRequestType
        (LspClient.encrypt key iv (queryV2Request q "codemap"))] <;>
      simp [LspClient.queryV2, QueryTarget.toStr, queryV2SwitchTag, queryV2TagOf, h]
  · cases h : c.sendRequest RequestType.UpdateIndexRequestType
        (LspClient.encrypt key iv (filePathPayload fp)) <;>
      simp [LspClient.updateIndex, h]
  · cases h : c.sendRequest RequestType.UpdateIndexV2RequestType
        (LspClient.encrypt key iv (updateIndexV2PayloadJson ⟨ps, m.toStr⟩)) <;>
      simp [LspClient.updateIndexV2, h]
  · cases h : c.sendRequest RequestType.GetUsageRequestType "" <;>
      simp [LspClient.getLspServerUsage, h]

/-- C6: get-usage dispatches its (single, unencrypted) request only when the
channel handle is present; with no channel it resolves to `undefined` at
once, sending nothing and logging nothing. -/
theorem C6_getUsage_only_when_present (i : Nat) (c : LanguageClient) :
    LspClient.getLspServerUsage ⟨i, none⟩ =
      ⟨Except.ok JsValue.undefined, [], []⟩ ∧
    (LspClient.getLspServerUsage ⟨i, none⟩).sent = [] ∧
    (LspClient.getLspServerUsage ⟨i, none⟩).logs = [] ∧
    (LspClient.getLspServerUsage ⟨i, some c⟩).sent = [(.GetUsageRequestType, "")] := by
  refine ⟨rfl, rfl, rfl, ?_⟩
  cases h : c.sendRequest RequestType.GetUsageRequestType "" <;>
    simp [LspClient.getLspServerUsage, h]

/-- C7: after `activate`'s environment block, the worker-thread variable is
bound (to the decimal string of the setting) exactly when the setting lies
strictly between 0 and 100, the GPU variable is bound (to "true") exactly
when the GPU setting is enabled, and otherwise each variable is absent from
the environment whatever it held before. -/
theorem C7_env_flags (gpu : Bool) (w : Int) (env : List (String × String)) :
    envGet "Q_WORKER_THREADS" (activateEnv gpu w env) =
      (if 0 < w ∧ w < 100 then some (toString w) else none) ∧
    envGet "Q_ENABLE_GPU" (activateEnv gpu w env) =
      (if gpu then some "true" else none) := by
  unfold activateEnv
  constructor
  · by_cases hw : w > 0 ∧ w < 100
    · rw [if_pos hw, envGet_envSet_self, if_pos hw]
    · rw [if_neg hw, envGet_envDelete_self, if_neg hw]
  · by_cases hw : w > 0 ∧ w < 100
    · rw [if_pos hw, envGet_envSet_other _ _ _ _ (by decide)]
      by_cases hg : gpu
      · rw [if_pos hg, if_pos hg, envGet_envSet_self]
      · rw [if_neg hg, if_neg hg, envGet_envDelete_self]
    · rw [if_neg hw, envGet_envDelete_other _ _ _ (by decide)]
      by_cases hg : gpu
      · rw [if_pos hg, if_pos hg, envGet_envSet_self]
      · rw [if_neg hg, if_neg hg, envGet_envDelete_self]

/-- C8: the module key is one 32-byte value generated at load; accessing the
lazy singleton twice yields the same object and the same module state, never
touches the key, and the base64 the bootstrap line advertises decodes back
to exactly that key. -/
theorem C8_single_key_and_instance (entropy : Nat → Nat) (m : LspModule) :
    (moduleLoad entropy).key.length = 32 ∧
    (∀ b ∈ (moduleLoad entropy).key, b < 256) ∧
    (LspClient.getInstance ((LspClient.getInstance m).2)).1 =
      (LspClient.getInstance m).1 ∧
    (LspClient.getInstance ((LspClient.getInstance m).2)).2 =
      (LspClient.getInstance m).2 ∧
    (LspClient.getInstance m).2.key = m.key ∧
    b64PadDecodeChars (b64PadChars (moduleLoad entropy).key) =
      (moduleLoad entropy).key := by
  have hlt : ∀ b ∈ (moduleLoad entropy).key, b < 256 := by
    intro b hb
    simp only [moduleLoad, randomBytes32, List.mem_map] at hb
    obtain ⟨j, _, hj⟩ := hb
    omega
  refine ⟨by simp [moduleLoad, randomBytes32], hlt, ?_, ?_, ?_,
    b64PadDecode_encode _ hlt⟩
  · cases h : m.instanceSlot <;> simp [LspClient.getInstance, h]
  · cases h : m.instanceSlot <;> simp [LspClient.getInstance, h]
  · cases h : m.instanceSlot <;> simp [LspClient.getInstance, h]

/-- C9: `indexFilesV2` derives the payload's `language` field from the
active editor — the active document's languageId when an editor is present
and exactly `"plaintext"` otherwise — and sends the encrypted serialization
of that payload. -/
theorem C9_indexFilesV2_language (ed : TextEditor) (ps : List String) (rp : String)
    (key iv : List Nat) (i : Nat) (c : LanguageClient) :
    (indexFilesV2Payload (some ed) ps rp).language = ed.document.languageId ∧
    (indexFilesV2Payload none ps rp).language = "plaintext" ∧
    (∀ ae : Option TextEditor, (LspClient.indexFilesV2 ⟨i, some c⟩ key iv ae ps rp).sent =
      [(.BuildIndexRequestType,
        LspClient.encrypt key iv (buildIndexPayloadJson (indexFilesV2Payload ae ps rp)))]) := by
  refine ⟨rfl, rfl, ?_⟩
  intro ae
  cases h : c.sendRequest RequestType.BuildIndexRequestType
      (LspClient.encrypt key iv (buildIndexPayloadJson (indexFilesV2Payload ae ps rp))) <;>
    simp [LspClient.indexFilesV2, h]

/-- C10: for every target of the declared closed type, the `queryV2` switch
resolves to exactly the corresponding request tag (never the throwing
default branch), the payload is `\x7b filePath \x7d` for codemap and
`\x7b query \x7d` otherwise, and the dispatched message uses that tag and
that payload. -/
theorem C10_queryV2_exhaustive_dispatch (q : String) (key iv : List Nat)
    (i : Nat) (c : LanguageClient) :
    (∀ t : QueryTarget, queryV2SwitchTag t.toStr = .ok (queryV2TagOf t)) ∧
    (∀ (t : QueryTarget) (e : String), queryV2SwitchTag t.toStr ≠ .error e) ∧
    queryV2Request q QueryTarget.codemap.toStr = filePathPayload q ∧
    queryV2Request q QueryTarget.bm25.toStr = queryPayload q ∧
    queryV2Request q QueryTarget.vector.toStr = queryPayload q ∧
    (∀ t : QueryTarget, (LspClient.queryV2 ⟨i, some c⟩ key iv q t).sent =
      [(queryV2TagOf t, LspClient.encrypt key iv (queryV2Request q t.toStr))]) := by
  refine ⟨fun t => by cases t <;> rfl, ?_, rfl, rfl, rfl, ?_⟩
  · intro t e h
    rw [show queryV2SwitchTag t.toStr = Except.ok (queryV2TagOf t) from by cases t <;> rfl]
      at h
    exact Except.noConfusion h
  · intro t
    cases t <;>
      [cases h : c.sendRequest RequestType.QueryBM25IndexRequestType
        (LspClient.encrypt key iv (queryV2Request q "bm25"));
       cases h : c.sendRequest RequestType.QueryVectorIndexRequestType
        (LspClient.encrypt key iv (queryV2Request q "vector"));
       cases h : c.sendRequest RequestType.QueryCodeMapIndexRequestType
        (LspClient.encrypt key iv (queryV2Request q "codemap"))] <;>
      simp [LspClient.queryV2, QueryTarget.toStr, queryV2SwitchTag, queryV2TagOf, h]

end LspSpec
